import Mathlib

/-!
Verification of the reactive-aggregate publisher (aggregate.js).

The embedding models the server-side publisher faithfully:
a JavaScript value model for aggregation result records, the mutable
per-subscription state (the identity map sub._ids and the counter
sub._iteration), the recompute function update, the debounce scheduler,
the configuration validation performed at setup, and the stop hook.
Sink calls (sub.added / sub.changed / sub.removed / sub.ready) are
modelled as emitted events; the external aggregation call is modelled
as a value of type AggResult (an ordered record set, or a failure).
-/

set_option maxHeartbeats 1000000

namespace ReactiveAggregate

/-- JavaScript values appearing in aggregation result records.
Numbers, strings, and arrays of records (one nesting level: the shape the
docsPropName configuration reads). -/
inductive Val where
  | vnum (n : Int)
  | vstr (s : String)
  | varr (docs : List (List (String × Val)))

/-- A JavaScript object: an insertion-ordered field list. Documents and
aggregation result records are both objects. -/
abbrev JsObj := List (String × Val)

/-- Property read obj[key]: first field with the given name, if any. -/
def lookupField : JsObj → String → Option Val
  | [], _ => none
  | (k, v) :: rest, key => if k = key then some v else lookupField rest key

/-- doc._id: the identity field of a document, undefined when absent. -/
def docId (d : JsObj) : Option Val := lookupField d "_id"

/-- JavaScript ToPropertyKey for the values used as sub._ids keys:
undefined stringifies to "undefined", numbers to their decimal form.
Array-valued identities (which JavaScript would stringify by joining
elements) are abstracted to one opaque token; no claim exercises them. -/
def jsKey : Option Val → String
  | none => "undefined"
  | some (.vstr s) => s
  | some (.vnum n) => toString n
  | some (.varr _) => "[array]"

/-- The property key under which a document is recorded in sub._ids. -/
def docKey (d : JsObj) : String := jsKey (docId d)

/-- JavaScript falsiness of the value read from sub._ids[key]:
undefined (absent) and 0 are falsy; the code tests !sub._ids[doc._id]. -/
def jsFalsy : Option Nat → Bool
  | none => true
  | some 0 => true
  | some _ => false

/-- Lookup in the identity map (a JavaScript object, modelled as an
insertion-ordered association list from property key to iteration stamp). -/
def alistLookup : List (String × Nat) → String → Option Nat
  | [], _ => none
  | (k, v) :: rest, key => if k = key then some v else alistLookup rest key

/-- Property write sub._ids[key] = v: replaces the value in place when the
key is present, appends a new field otherwise. -/
def alistSet : List (String × Nat) → String → Nat → List (String × Nat)
  | [], key, v => [(key, v)]
  | (k, w) :: rest, key, v =>
    if k = key then (k, v) :: rest else (k, w) :: alistSet rest key v

/-- One sink event: a sub.added / sub.changed / sub.removed call.
added and changed carry the full record; removed carries the map key. -/
inductive Event where
  | added (target : String) (id : Option Val) (record : JsObj)
  | changed (target : String) (id : Option Val) (record : JsObj)
  | removed (target : String) (id : String)

/-- The error type created with Meteor.makeErrorType under the stable kind
tag tunguska:reactive-aggregate; every failure of update is wrapped into
this type by the catch block, carrying the original message. -/
structure TunguskaReactiveAggregateError where
  message : String
deriving DecidableEq, Repr

/-- Per-subscription differ state: sub._ids (identity map from property key
to iteration stamp) and sub._iteration, set to {} and 1 at setup. -/
structure SubState where
  ids : List (String × Nat)
  iteration : Nat
deriving DecidableEq, Repr

/-- Initial differ state created at subscription setup (lines 114-115). -/
def initialSubState : SubState := ⟨[], 1⟩

/-- Outcome of one invocation of update: the sink events emitted (in
order), the differ state as left behind, and the error, if one was
thrown (wrapped by the catch block). -/
structure UpdateResult where
  events : List Event
  state : SubState
  error : Option TunguskaReactiveAggregateError

/-- The validated local options consumed by update and debounce. -/
structure Options where
  clientCollection : String
  clientExtrasCollection : String
  docsPropName : Option String
  debounceCount : Nat
  debounceDelay : Nat
  /-- models sub._subscriptionId, the key of the extras singleton. -/
  subId : String

/-- Outcome of the external aggregation call
collection.rawCollection().aggregate(pipeline, options).toArray():
an ordered record set, or a failure with a message. -/
inductive AggResult where
  | ok (records : List JsObj)
  | fail (msg : String)

/-- The docs.forEach pass (lines 146-153): for each document in snapshot
order, emit added when sub._ids[doc._id] is falsy and changed otherwise,
then write sub._ids[doc._id] = sub._iteration. Returns the mutated map and
the events in emission order. -/
def processDocs (cc : String) (iter : Nat) :
    List (String × Nat) → List JsObj → List (String × Nat) × List Event
  | m, [] => (m, [])
  | m, doc :: docs =>
    let ev := if jsFalsy (alistLookup m (docKey doc))
      then Event.added cc (docId doc) doc
      else Event.changed cc (docId doc) doc
    let m1 := alistSet m (docKey doc) iter
    let r := processDocs cc iter m1 docs
    (r.1, ev :: r.2)

/-- The removal pass (lines 156-161): over the keys of sub._ids in order,
delete every entry whose stamp differs from sub._iteration and emit
removed for its key. Returns the surviving map and the removal events. -/
def removeStale (cc : String) (iter : Nat) :
    List (String × Nat) → List (String × Nat) × List Event
  | [] => ([], [])
  | (k, v) :: rest =>
    let r := removeStale cc iter rest
    if v = iter then ((k, v) :: r.1, r.2)
    else (r.1, Event.removed cc k :: r.2)

/-- Lines 146-162 of update: the docs pass, the removal pass, then
sub._iteration++. pre holds events already emitted earlier in this
recompute (the extras event, when configured). -/
def runDocsPhase (o : Options) (st : SubState) (pre : List Event)
    (docs : List JsObj) : UpdateResult :=
  let d := processDocs o.clientCollection st.iteration st.ids docs
  let r := removeStale o.clientCollection st.iteration d.1
  { events := pre ++ d.2 ++ r.2
    state := { ids := r.1, iteration := st.iteration + 1 }
    error := none }

/-- The update function (lines 117-166). Returns early while initializing.
On aggregation failure the catch block rethrows a
TunguskaReactiveAggregateError with the original message and nothing else
happens. With docsPropName configured, reading aggregationResult[0] of an
empty result throws; otherwise the extras record (all top-level fields of
the first record other than the documents field) is emitted first - via
sub.added, because the local variable initializingExtras is freshly true
on every call, making the changed branch dead code - and then the
documents field must be an array for the forEach pass to run; any thrown
error is wrapped by the catch block, with all mutations made so far kept
(the code mutates sub._ids in place). -/
def update (o : Options) (initializing : Bool) (st : SubState)
    (res : AggResult) : UpdateResult :=
  if initializing then { events := [], state := st, error := none }
  else
    match res with
    | .fail msg => { events := [], state := st, error := some ⟨msg⟩ }
    | .ok aggregationResult =>
      match o.docsPropName with
      | none => runDocsPhase o st [] aggregationResult
      | some propName =>
        match aggregationResult with
        | [] =>
          { events := [], state := st
            error := some ⟨"Cannot read properties of undefined"⟩ }
        | r0 :: _ =>
          let extras : JsObj := r0.filter (fun p => p.1 != propName)
          let initializingExtras := true
          let extrasEvent :=
            if initializingExtras
            then Event.added o.clientExtrasCollection (some (.vstr o.subId)) extras
            else Event.changed o.clientExtrasCollection (some (.vstr o.subId)) extras
          match lookupField r0 propName with
          | some (.varr docs) => runDocsPhase o st [extrasEvent] docs
          | _ =>
            { events := [extrasEvent], state := st
              error := some ⟨"docs.forEach is not a function"⟩ }

/-- Debounce scheduler state (lines 168-169): the timer variable (never
reset once a handle is stored, so timerSet records that a setTimeout
handle was ever assigned), whether a scheduled timeout is still pending,
and currentDebounceCount. -/
structure DState where
  timerSet : Bool
  timerArmed : Bool
  currentDebounceCount : Nat
deriving DecidableEq, Repr

/-- Debounce state at the end of setup: no timer, count 0. -/
def initialDState : DState := ⟨false, false, 0⟩

/-- One change signal handled by debounce (lines 171-179). Returns the new
state and whether update was invoked by this signal. Returns early while
initializing. A timer is armed only when the timer variable is falsy (no
handle ever stored) and debounceCount > 0; then the count is
pre-incremented and, when it exceeds debounceCount, the count is reset,
any pending timeout cleared, and update invoked. -/
def debounce (o : Options) (initializing : Bool) (d : DState) :
    DState × Bool :=
  if initializing then (d, false)
  else
    let d1 := if d.timerSet = false ∧ 0 < o.debounceCount
      then { d with timerSet := true, timerArmed := true } else d
    let c := d1.currentDebounceCount + 1
    if o.debounceCount < c then
      ({ d1 with currentDebounceCount := 0, timerArmed := false }, true)
    else
      ({ d1 with currentDebounceCount := c }, false)

/-- Expiry of the scheduled timeout: when still pending it fires once,
invoking update; the timer variable and currentDebounceCount are left
untouched (the timeout callback is update itself, line 173). -/
def timerExpire (d : DState) : DState × Bool :=
  if d.timerArmed then ({ d with timerArmed := false }, true) else (d, false)

/-- currentDebounceCount after k consecutive change signals (no timer
expiry in between), starting from count c, after setup. Mirrors the count
dynamics of debounce, which are independent of the timer fields. -/
def signalCount (o : Options) (c : Nat) : Nat → Nat
  | 0 => c
  | k + 1 =>
    let c1 := signalCount o c k + 1
    if o.debounceCount < c1 then 0 else c1

/-- Whether the signal arriving after k earlier signals invokes update
immediately (the count threshold is crossed). -/
def signalFires (o : Options) (c : Nat) (k : Nat) : Bool :=
  decide (o.debounceCount < signalCount o c k + 1)

/-- A sink call: an added/changed/removed event, or sub.ready(). -/
inductive SinkCall where
  | ev (e : Event)
  | ready

/-- The change signals delivered by observeChanges during the setup phase
(for each initial document of each observed cursor): every one invokes
debounce while initializing is still true. Returns the debounce state and
how many times update was invoked by these signals. -/
def runSetupSignals (o : Options) (d : DState) : Nat → DState × Nat
  | 0 => (d, 0)
  | n + 1 =>
    let s := debounce o true d
    let r := runSetupSignals o s.1 n
    (r.1, (if s.2 then 1 else 0) + r.2)

/-- The tail of ReactiveAggregate (lines 181-205): the observers are
wired (delivering nSignals initial change signals while initializing is
true), initializing is cleared, one unconditional update is invoked
directly (not through debounce) on the first aggregation outcome, and
sub.ready() is called. update is an async function invoked WITHOUT await
(line 203): it suspends at the await of the aggregation call before
emitting anything, so sub.ready() (line 205) runs first, and the events
of the initial recompute follow once the aggregation result arrives.
Returns the sink calls in that order, the differ state, and the debounce
state. -/
def setupRun (o : Options) (nSignals : Nat) (firstAgg : AggResult) :
    List SinkCall × SubState × DState :=
  let w := runSetupSignals o initialDState nSignals
  let r := update o false initialSubState firstAgg
  (SinkCall.ready :: r.events.map SinkCall.ev, r.state, w.1)

/-- One observeChanges handle, detachable via handle.stop(). -/
structure ObserverHandle where
  stopped : Bool
deriving DecidableEq, Repr

/-- handle.stop(): detaches the observer. -/
def stopHandle (h : ObserverHandle) : ObserverHandle := { h with stopped := true }

/-- A live subscription instance: its observer handles, debounce state and
differ state. -/
structure SubInstance where
  handles : List ObserverHandle
  dstate : DState
  sstate : SubState
deriving DecidableEq, Repr

/-- The sub.onStop callback (lines 208-212): stops every handle. It does
not touch the debounce state (in particular it does not clear a pending
timeout) nor the differ state. -/
def onStopRun (s : SubInstance) : SubInstance :=
  { s with handles := s.handles.map stopHandle }

/-- Truncation toward zero, the effect of parseInt on the decimal
representation of an ordinary finite number (exponent-notation magnitudes
are not modelled; no claim exercises them). -/
def jsTrunc (q : Rat) : Int := if q < 0 then q.ceil else q.floor

/-- The raw inputs inspected by the validation of lines 20-103: shape
flags for the checks that only test a shape, the boolean value of
noAutomaticObserver (none: not a boolean), the is-a-cursor flag of each
supplied observer (none: observers is not an array), and the numeric
values of debounceCount and debounceDelay (none: not a number). -/
structure SetupInput where
  subOk : Bool
  collectionOk : Bool
  pipelineIsArray : Bool
  optionsIsObject : Bool
  noAutomaticObserver : Option Bool
  observeSelectorIsObject : Bool
  observeOptionsIsObject : Bool
  observers : Option (List Bool)
  debounceCount : Option Rat
  debounceDelay : Option Rat
  clientCollectionIsString : Bool

/-- The configuration surviving validation: the noAutomaticObserver flag,
the number of supplied observers, and the debounce values as left by
parseInt. -/
structure ValidatedConfig where
  noAutomaticObserver : Bool
  suppliedObservers : Nat
  debounceCount : Int
  debounceDelay : Int
deriving DecidableEq, Repr

/-- The synchronous validation of lines 20-103, in source order. Each
throw aborts construction with a TunguskaReactiveAggregateError. The
debounce values are required to be numbers, then passed through parseInt,
and rejected only when the truncated value is negative. -/
def checkConfig (i : SetupInput) :
    Except TunguskaReactiveAggregateError ValidatedConfig :=
  if i.subOk = false then
    .error ⟨"unexpected context - did you set \"sub\" to \"this\"?"⟩
  else if i.collectionOk = false then
    .error ⟨"\"collection\" must be a Mongo.Collection"⟩
  else if i.pipelineIsArray = false then
    .error ⟨"\"pipeline\" must be an array"⟩
  else if i.optionsIsObject = false then
    .error ⟨"\"options\" must be an object"⟩
  else
    match i.noAutomaticObserver with
    | none => .error ⟨"\"options.noAutomaticObserver\" must be true or false"⟩
    | some nao =>
      if i.observeSelectorIsObject = false then
        .error ⟨"deprecated \"options.observeSelector\" must be an object"⟩
      else if i.observeOptionsIsObject = false then
        .error ⟨"deprecated \"options.observeOptions\" must be an object"⟩
      else
        match i.observers with
        | none => .error ⟨"\"options.observers\" must be an array of cursors"⟩
        | some obs =>
          if obs.all (fun b => b) = false then
            .error ⟨"\"options.observers[i]\" must be a cursor"⟩
          else
            match i.debounceCount with
            | none => .error ⟨"\"options.debounceCount\" must be a positive integer"⟩
            | some qc =>
              if jsTrunc qc < 0 then
                .error ⟨"\"options.debounceCount\" must be a positive integer"⟩
              else
                match i.debounceDelay with
                | none => .error ⟨"\"options.debounceDelay\" must be a positive integer"⟩
                | some qd =>
                  if jsTrunc qd < 0 then
                    .error ⟨"\"options.debounceDelay\" must be a positive integer"⟩
                  else if i.clientCollectionIsString = false then
                    .error ⟨"\"options.clientCollection\" must be a string"⟩
                  else
                    .ok ⟨nao, obs.length, jsTrunc qc, jsTrunc qd⟩

/-- Construction up to observer attachment: when validation throws, the
error propagates and no observer is attached; otherwise the automatic
observer is appended unless suppressed (lines 181-184) and one
observeChanges handle is attached per observer (lines 186-197). Returns
the number of handles attached. -/
def reactiveAggregateSetup (i : SetupInput) :
    Except TunguskaReactiveAggregateError Nat :=
  match checkConfig i with
  | .error e => .error e
  | .ok cfg =>
    .ok (cfg.suppliedObservers + (if cfg.noAutomaticObserver then 0 else 1))

/-- A sequence of recomputes: the differ state threaded through update for
each successive aggregation outcome (initializing is false after setup). -/
def runUpdates (o : Options) (st : SubState) : List AggResult → SubState
  | [] => st
  | r :: rs => runUpdates o (update o false st r).state rs

/-- The iteration stamps used along a sequence of recomputes: a recompute
that completes without error stamps its documents with the entry value of
sub._iteration. -/
def stampsUsed (o : Options) (st : SubState) : List AggResult → List Nat
  | [] => []
  | r :: rs =>
    match (update o false st r).error with
    | none => st.iteration :: stampsUsed o (update o false st r).state rs
    | some _ => stampsUsed o (update o false st r).state rs

/-- Concrete options: flat result shape (no docsPropName), defaults. -/
def oFlat : Options := ⟨"coll", "ReactiveAggregate", none, 0, 0, "sub1"⟩

/-- Concrete options: nested result shape under the items field, with
debounceCount 2 and debounceDelay 50. -/
def oNested : Options := ⟨"coll", "extras", some "items", 2, 50, "sub1"⟩

/-! ### Association-list lemmas -/

theorem alistLookup_alistSet (m : List (String × Nat)) (k : String) (v : Nat)
    (k' : String) :
    alistLookup (alistSet m k v) k' =
      if k' = k then some v else alistLookup m k' := by
  induction m with
  | nil =>
    by_cases h : k' = k
    · subst h; simp [alistSet, alistLookup]
    · have h2 : ¬ k = k' := fun h' => h h'.symm
      simp [alistSet, alistLookup, h, h2]
  | cons hd tl ih =>
    obtain ⟨k0, v0⟩ := hd
    by_cases h0 : k0 = k
    · subst h0
      by_cases h1 : k' = k0
      · subst h1; simp [alistSet, alistLookup]
      · have h2 : ¬ k0 = k' := fun h' => h1 h'.symm
        simp [alistSet, alistLookup, h1, h2]
    · by_cases h1 : k0 = k'
      · subst h1
        have h2 : ¬ k0 = k := h0
        simp [alistSet, alistLookup, h0, h2, fun h' : k0 = k => h0 h']
      · simp [alistSet, alistLookup, h0, h1, ih]

theorem alistSet_keys (m : List (String × Nat)) (k : String) (v : Nat) :
    (alistSet m k v).map Prod.fst =
      if k ∈ m.map Prod.fst then m.map Prod.fst else m.map Prod.fst ++ [k] := by
  induction m with
  | nil => simp [alistSet]
  | cons hd tl ih =>
    obtain ⟨k0, v0⟩ := hd
    by_cases h0 : k0 = k
    · subst h0; simp [alistSet]
    · have h2 : ¬ k = k0 := fun h => h0 h.symm
      by_cases h1 : k ∈ tl.map Prod.fst
      · simp [alistSet, h0, h2, h1, ih]
      · simp [alistSet, h0, h2, h1, ih]

theorem alistSet_keys_nodup (m : List (String × Nat)) (k : String) (v : Nat)
    (h : (m.map Prod.fst).Nodup) : ((alistSet m k v).map Prod.fst).Nodup := by
  rw [alistSet_keys]
  by_cases h1 : k ∈ m.map Prod.fst
  · simpa [h1] using h
  · simp only [if_neg h1]
    simpa [List.nodup_append, h1] using h

theorem mem_alistSet (m : List (String × Nat)) (k : String) (v : Nat)
    (p : String × Nat) (h : p ∈ alistSet m k v) : p ∈ m ∨ p = (k, v) := by
  induction m with
  | nil => simpa [alistSet] using h
  | cons hd tl ih =>
    obtain ⟨k0, v0⟩ := hd
    simp only [alistSet] at h
    by_cases h0 : k0 = k
    · simp only [if_pos h0] at h
      rcases List.mem_cons.mp h with h1 | h1
      · subst h0; right; simpa using h1
      · left; exact List.mem_cons_of_mem _ h1
    · simp only [if_neg h0] at h
      rcases List.mem_cons.mp h with h1 | h1
      · left; simp [h1]
      · rcases ih h1 with h2 | h2
        · left; exact List.mem_cons_of_mem _ h2
        · right; exact h2

theorem alistLookup_eq_none (m : List (String × Nat)) (k : String)
    (h : k ∉ m.map Prod.fst) : alistLookup m k = none := by
  induction m with
  | nil => rfl
  | cons hd tl ih =>
    obtain ⟨k0, v0⟩ := hd
    simp only [List.map_cons, List.mem_cons] at h
    push_neg at h
    simp only [alistLookup, if_neg (fun h' : k0 = k => h.1 h'.symm)]
    exact ih h.2

theorem alistLookup_of_mem (m : List (String × Nat)) (k : String) (v : Nat)
    (hnd : (m.map Prod.fst).Nodup) (h : (k, v) ∈ m) :
    alistLookup m k = some v := by
  induction m with
  | nil => simp at h
  | cons hd tl ih =>
    obtain ⟨k0, v0⟩ := hd
    simp only [List.map_cons, List.nodup_cons] at hnd
    rcases List.mem_cons.mp h with h1 | h1
    · injection h1 with ha hb
      subst ha; subst hb
      simp [alistLookup]
    · have hk : k0 ≠ k := by
        intro h2
        exact hnd.1 (h2 ▸ (List.mem_map.mpr ⟨(k, v), h1, rfl⟩))
      simp only [alistLookup, if_neg hk]
      exact ih hnd.2 h1

theorem alistLookup_mem (m : List (String × Nat)) (k : String) (v : Nat)
    (h : alistLookup m k = some v) : (k, v) ∈ m := by
  induction m with
  | nil => simp [alistLookup] at h
  | cons hd tl ih =>
    obtain ⟨k0, v0⟩ := hd
    simp only [alistLookup] at h
    by_cases h0 : k0 = k
    · subst h0
      rw [if_pos rfl] at h
      injection h with h2
      subst h2
      exact List.mem_cons_self _ _
    · rw [if_neg h0] at h
      exact List.mem_cons_of_mem _ (ih h)

/-! ### Docs-pass and removal-pass lemmas -/

theorem processDocs_lookup (cc : String) (iter : Nat) (docs : List JsObj)
    (m : List (String × Nat)) (k : String)
    (hd : (docs.map docKey).Nodup) :
    alistLookup (processDocs cc iter m docs).1 k =
      if k ∈ docs.map docKey then some iter else alistLookup m k := by
  induction docs generalizing m with
  | nil => simp [processDocs]
  | cons d ds ih =>
    simp only [List.map_cons, List.nodup_cons] at hd
    simp only [processDocs]
    rw [ih _ hd.2]
    by_cases h1 : k ∈ ds.map docKey
    · have h2 : k ∈ docKey d :: ds.map docKey := List.mem_cons_of_mem _ h1
      simp [h1, List.mem_cons.mpr (Or.inr h1)]
    · by_cases h0 : k = docKey d
      · subst h0
        simp [h1, alistLookup_alistSet]
      · have h2 : k ∉ docKey d :: ds.map docKey := by
          simp [h0, h1]
        simp [h1, h2, alistLookup_alistSet, h0]

theorem processDocs_keys_nodup (cc : String) (iter : Nat) (docs : List JsObj)
    (m : List (String × Nat)) (hm : (m.map Prod.fst).Nodup) :
    (((processDocs cc iter m docs).1).map Prod.fst).Nodup := by
  induction docs generalizing m with
  | nil => simpa [processDocs] using hm
  | cons d ds ih =>
    simp only [processDocs]
    exact ih _ (alistSet_keys_nodup _ _ _ hm)

theorem processDocs_mem (cc : String) (iter : Nat) (docs : List JsObj)
    (m : List (String × Nat)) (p : String × Nat)
    (h : p ∈ (processDocs cc iter m docs).1) : p ∈ m ∨ p.2 = iter := by
  induction docs generalizing m with
  | nil => exact Or.inl (by simpa [processDocs] using h)
  | cons d ds ih =>
    simp only [processDocs] at h
    rcases ih _ h with h1 | h1
    · rcases mem_alistSet _ _ _ _ h1 with h2 | h2
      · exact Or.inl h2
      · exact Or.inr (by rw [h2])
    · exact Or.inr h1

theorem processDocs_events (cc : String) (iter : Nat) (docs : List JsObj)
    (m : List (String × Nat)) (hd : (docs.map docKey).Nodup)
    (hm : ∀ p ∈ m, p.2 ≠ 0) (hiter : iter ≠ 0) :
    (processDocs cc iter m docs).2 =
      docs.map (fun d =>
        match alistLookup m (docKey d) with
        | none => Event.added cc (docId d) d
        | some _ => Event.changed cc (docId d) d) := by
  induction docs generalizing m with
  | nil => simp [processDocs]
  | cons d ds ih =>
    simp only [List.map_cons, List.nodup_cons] at hd
    simp only [processDocs, List.map_cons]
    rw [List.cons_eq_cons]
    constructor
    · cases hcur : alistLookup m (docKey d) with
      | none => simp [jsFalsy, hcur]
      | some v =>
        have hv : v ≠ 0 := hm _ (alistLookup_mem _ _ _ hcur)
        cases v with
        | zero => exact absurd rfl hv
        | succ n => simp [jsFalsy, hcur]
    · have hm1 : ∀ p ∈ alistSet m (docKey d) iter, p.2 ≠ 0 := by
        intro p hp
        rcases mem_alistSet _ _ _ _ hp with h1 | h1
        · exact hm _ h1
        · rw [h1]; exact hiter
      rw [ih _ hd.2 hm1]
      apply List.map_congr_left
      intro d' hd'
      have hne : docKey d' ≠ docKey d := by
        intro h
        exact hd.1 (h ▸ List.mem_map.mpr ⟨d', hd', rfl⟩)
      rw [alistLookup_alistSet, if_neg hne]

theorem removeStale_eq (cc : String) (iter : Nat) (m : List (String × Nat)) :
    removeStale cc iter m =
      (m.filter (fun p => p.2 == iter),
       (m.filter (fun p => !(p.2 == iter))).map
         (fun p => Event.removed cc p.1)) := by
  induction m with
  | nil => simp [removeStale]
  | cons hd tl ih =>
    obtain ⟨k0, v0⟩ := hd
    by_cases h0 : v0 = iter
    · subst h0; simp [removeStale, ih, List.filter_cons]
    · simp [removeStale, ih, h0, List.filter_cons, beq_iff_eq]

theorem alistLookup_filter_stamp (iter : Nat) (m : List (String × Nat))
    (k : String) (hnd : (m.map Prod.fst).Nodup) :
    alistLookup (m.filter (fun p => p.2 == iter)) k =
      (alistLookup m k).bind (fun v => if v = iter then some v else none) := by
  induction m with
  | nil => simp [alistLookup]
  | cons hd tl ih =>
    obtain ⟨k0, v0⟩ := hd
    simp only [List.map_cons, List.nodup_cons] at hnd
    by_cases h0 : v0 = iter
    · subst h0
      by_cases h1 : k0 = k
      · subst h1; simp [alistLookup, List.filter_cons]
      · simp [alistLookup, List.filter_cons, h1, ih hnd.2]
    · by_cases h1 : k0 = k
      · subst h1
        have h2 : k0 ∉ (tl.filter (fun p => p.2 == iter)).map Prod.fst := by
          intro h3
          rcases List.mem_map.mp h3 with ⟨p, hp, hpk⟩
          exact hnd.1 (hpk ▸ List.mem_map.mpr ⟨p, List.mem_of_mem_filter hp, rfl⟩)
        simp [alistLookup, List.filter_cons, h0, beq_iff_eq,
          alistLookup_eq_none _ _ h2]
      · simp [alistLookup, List.filter_cons, h0, h1, beq_iff_eq, ih hnd.2]

theorem alistSet_filter (m : List (String × Nat)) (k : String) (v : Nat)
    (q : String × Nat → Bool) (hnd : (m.map Prod.fst).Nodup)
    (hq : q (k, v) = false) :
    (alistSet m k v).filter q = m.filter (fun p => q p && !(p.1 == k)) := by
  induction m with
  | nil => simp [alistSet, List.filter, hq]
  | cons hd tl ih =>
    obtain ⟨k0, v0⟩ := hd
    simp only [List.map_cons, List.nodup_cons] at hnd
    by_cases h0 : k0 = k
    · subst h0
      have h1 : ∀ p ∈ tl, (q p && !(p.1 == k0)) = q p := by
        intro p hp
        have : p.1 ≠ k0 := by
          intro h2
          exact hnd.1 (h2 ▸ List.mem_map.mpr ⟨p, hp, rfl⟩)
        simp [this]
      have hset : alistSet ((k0, v0) :: tl) k0 v = (k0, v) :: tl := by
        simp [alistSet]
      rw [hset, List.filter_cons, List.filter_cons]
      rw [if_neg (by simp [hq]), if_neg (by simp)]
      exact (List.filter_congr h1).symm
    · simp only [alistSet, if_neg h0]
      rw [List.filter_cons, List.filter_cons]
      have h2 : ¬ k0 = k := h0
      by_cases h3 : q (k0, v0)
      · simp [h3, h2, ih hnd.2]
      · simp [h3, ih hnd.2]

theorem processDocs_filter_ne (cc : String) (iter : Nat) (docs : List JsObj)
    (m : List (String × Nat)) (hnd : (m.map Prod.fst).Nodup) :
    (processDocs cc iter m docs).1.filter (fun p => !(p.2 == iter)) =
      m.filter (fun p => !(p.2 == iter) && !((docs.map docKey).contains p.1)) := by
  induction docs generalizing m with
  | nil => simp [processDocs]
  | cons d ds ih =>
    simp only [processDocs]
    rw [ih _ (alistSet_keys_nodup _ _ _ hnd)]
    rw [alistSet_filter _ _ _ _ hnd (by simp)]
    apply List.filter_congr
    intro p hp
    simp only [List.map_cons, List.contains_cons]
    by_cases h1 : p.2 == iter <;> by_cases h2 : p.1 == docKey d <;>
      by_cases h3 : (ds.map docKey).contains p.1 <;>
        simp_all [Bool.beq_eq_decide_eq]

/-- Dispatch lemma: with no docsPropName configured, a successful
aggregation runs the docs and removal passes directly on the result. -/
theorem update_flat (o : Options) (st : SubState) (docs : List JsObj)
    (hprop : o.docsPropName = none) :
    update o false st (.ok docs) = runDocsPhase o st [] docs := by
  simp [update, hprop]

/-! ### Claim theorems -/

/-- C1: for every recompute over a snapshot with the prior identity map
and the current iteration value: records are processed in snapshot order,
a record whose identity is absent from the map is emitted as
added(identity, record) and one whose identity is present as
changed(identity, record) carrying the full record, and the map entry of
each such identity is set to the current iteration; every identity left
in the map whose stored stamp is not the current iteration is emitted as
removed(identity) exactly once and deleted; all added/changed events
precede all removed events. Hypotheses: reachable differ state (distinct
map keys, stamps positive and older than the current iteration) and
distinct identities in the snapshot. -/
theorem c1_snapshot_differ (o : Options) (st : SubState) (docs : List JsObj)
    (hprop : o.docsPropName = none)
    (hkeys : (st.ids.map Prod.fst).Nodup)
    (hit : 0 < st.iteration)
    (hinv : ∀ p ∈ st.ids, 0 < p.2 ∧ p.2 < st.iteration)
    (hdocs : (docs.map docKey).Nodup) :
    (update o false st (.ok docs)).error = none ∧
    (update o false st (.ok docs)).events =
      (docs.map (fun d =>
        match alistLookup st.ids (docKey d) with
        | none => Event.added o.clientCollection (docId d) d
        | some _ => Event.changed o.clientCollection (docId d) d))
      ++ ((st.ids.filter (fun p => !((docs.map docKey).contains p.1))).map
            (fun p => Event.removed o.clientCollection p.1)) ∧
    (∀ d ∈ docs,
      alistLookup (update o false st (.ok docs)).state.ids (docKey d)
        = some st.iteration) ∧
    (∀ p ∈ st.ids, p.1 ∉ docs.map docKey →
      alistLookup (update o false st (.ok docs)).state.ids p.1 = none) ∧
    ((st.ids.filter (fun p => !((docs.map docKey).contains p.1))).map
        Prod.fst).Nodup ∧
    (update o false st (.ok docs)).state.iteration = st.iteration + 1 := by
  have hitne : st.iteration ≠ 0 := Nat.pos_iff_ne_zero.mp hit
  have hm0 : ∀ p ∈ st.ids, p.2 ≠ 0 :=
    fun p hp => Nat.pos_iff_ne_zero.mp (hinv p hp).1
  have hm1nd : (((processDocs o.clientCollection st.iteration st.ids docs).1).map
      Prod.fst).Nodup := processDocs_keys_nodup _ _ _ _ hkeys
  rw [update_flat o st docs hprop]
  simp only [runDocsPhase, removeStale_eq]
  refine ⟨trivial, ?_, ?_, ?_, ?_, trivial⟩
  · show [] ++ _ ++ _ = _
    rw [List.nil_append,
      processDocs_events _ _ _ _ hdocs hm0 hitne,
      processDocs_filter_ne _ _ _ _ hkeys]
    have hcongr :
        st.ids.filter
          (fun p => !(p.2 == st.iteration) && !((docs.map docKey).contains p.1)) =
        st.ids.filter (fun p => !((docs.map docKey).contains p.1)) := by
      apply List.filter_congr
      intro p hp
      have : p.2 ≠ st.iteration := Nat.ne_of_lt (hinv p hp).2
      simp [this]
    rw [hcongr]
  · intro d hd
    show alistLookup (List.filter _ _) (docKey d) = _
    rw [alistLookup_filter_stamp _ _ _ hm1nd,
      processDocs_lookup _ _ _ _ _ hdocs]
    simp [List.mem_map.mpr ⟨d, hd, rfl⟩]
  · intro p hp hpk
    show alistLookup (List.filter _ _) p.1 = _
    rw [alistLookup_filter_stamp _ _ _ hm1nd,
      processDocs_lookup _ _ _ _ _ hdocs]
    have hlk : alistLookup st.ids p.1 = some p.2 :=
      alistLookup_of_mem _ _ _ hkeys hp
    have hne : p.2 ≠ st.iteration := Nat.ne_of_lt (hinv p hp).2
    simp [hpk, hlk, hne]
  · exact ((List.filter_sublist st.ids).map Prod.fst).nodup hkeys

/-- Witness for C1: the spec example. Prior map from snapshot
[doc 1, doc 2] at iteration 2; next snapshot [doc 2 v21, doc 3 v30]
yields changed(2), added(3), removed(1), and the counter moves to 3. -/
theorem c1_snapshot_differ_witness :
    (update oFlat false ⟨[("1", 1), ("2", 1)], 2⟩
      (.ok [[("_id", .vstr "2"), ("v", .vnum 21)],
            [("_id", .vstr "3"), ("v", .vnum 30)]])).events =
      [Event.changed "coll" (some (.vstr "2")) [("_id", .vstr "2"), ("v", .vnum 21)],
       Event.added "coll" (some (.vstr "3")) [("_id", .vstr "3"), ("v", .vnum 30)],
       Event.removed "coll" "1"] ∧
    (update oFlat false ⟨[("1", 1), ("2", 1)], 2⟩
      (.ok [[("_id", .vstr "2"), ("v", .vnum 21)],
            [("_id", .vstr "3"), ("v", .vnum 30)]])).state.iteration = 3 := by
  have h := c1_snapshot_differ oFlat ⟨[("1", 1), ("2", 1)], 2⟩
    [[("_id", .vstr "2"), ("v", .vnum 21)], [("_id", .vstr "3"), ("v", .vnum 30)]]
    rfl (by decide) (by decide) (by decide) (by decide)
  exact ⟨h.2.1.trans rfl, h.2.2.2.2.2.trans rfl⟩

/-- C4: an aggregation failure is rethrown as a
TunguskaReactiveAggregateError (the stable kind tag) carrying the original
message, the differ state - identity map and iteration, hence the
previously published identity set - is left exactly unchanged, and no
added/changed/removed event is emitted. The update function never touches
the observer handles, so the subscription stays wired for the next
trigger. -/
theorem c4_aggregation_failure (o : Options) (st : SubState) (msg : String) :
    update o false st (.fail msg) =
      { events := [], state := st, error := some ⟨msg⟩ } := by
  simp [update]

/-- C5 counterexample: a snapshot whose only record has no identity
field. The recompute does not abort - no error is thrown - and the
identity map is mutated: an entry is written under the property key
"undefined" (JavaScript coerces the undefined identity to that key). This
refutes the claimed abort-with-unchanged-map behaviour. -/
theorem c5_counterexample :
    (update oFlat false initialSubState (.ok [[("v", .vnum 10)]])).error = none ∧
    (update oFlat false initialSubState (.ok [[("v", .vnum 10)]])).state.ids
      = [("undefined", 1)] ∧
    (update oFlat false initialSubState (.ok [[("v", .vnum 10)]])).state.ids
      ≠ initialSubState.ids := by
  refine ⟨rfl, rfl, by decide⟩

/-- Any update invocation that ends in an error has left the differ state
exactly as it was: every failure occurs before any map mutation. -/
theorem update_error_state_eq (o : Options) (init : Bool) (st : SubState)
    (res : AggResult) (h : (update o init st res).error.isSome = true) :
    (update o init st res).state = st := by
  cases init with
  | true => simp [update] at h
  | false =>
    cases res with
    | fail msg => simp [update]
    | ok records =>
      cases hp : o.docsPropName with
      | none => simp [update, hp, runDocsPhase] at h
      | some propName =>
        cases records with
        | nil => simp [update, hp]
        | cons r0 rest =>
          cases hl : lookupField r0 propName with
          | none => simp [update, hp, hl]
          | some v =>
            cases v with
            | vnum n => simp [update, hp, hl]
            | vstr s => simp [update, hp, hl]
            | varr ds => simp [update, hp, hl, runDocsPhase] at h

/-- C5 amended: a record missing its identity field does not abort the
recompute; it is processed like any other record under the undefined
identity. What does hold of the code: whenever an update invocation ends
in an error, the identity map and iteration counter are exactly as before
that recompute began - every failure (aggregation failure, empty result
with docsPropName, non-array documents field) occurs before any map
mutation, so the map never reflects only part of a snapshot. -/
theorem c5_amended (o : Options) (init : Bool) (st : SubState)
    (res : AggResult) (h : (update o init st res).error.isSome = true) :
    (update o init st res).state = st :=
  update_error_state_eq o init st res h

/-- Witness for C5 amended: a concrete failing recompute (aggregation
failure) leaves the concrete prior state untouched. -/
theorem c5_amended_witness :
    (update oFlat false ⟨[("a", 1)], 2⟩ (.fail "boom")).state
      = ⟨[("a", 1)], 2⟩ :=
  c5_amended oFlat false ⟨[("a", 1)], 2⟩ (.fail "boom") rfl

/-- C3, failing input: with docsPropName configured, the code emits the
extras record via sub.added on EVERY successful recompute, never via
sub.changed: the flag initializingExtras is declared locally inside
update, so it is freshly true on each call and the changed branch is dead
code (the dead else branch and the assignment initializingExtras = false
show the intended added-then-changed behaviour the claim describes).
Here the second successful recompute still yields an added extras event
where the claim requires changed. -/
theorem c3_extras_second_recompute_added :
    (update oNested false initialSubState
      (.ok [[("items", .varr [[("_id", .vstr "1")]]), ("total", .vnum 5)]])).events.head?
      = some (Event.added "extras" (some (.vstr "sub1")) [("total", .vnum 5)]) ∧
    (update oNested false
      (update oNested false initialSubState
        (.ok [[("items", .varr [[("_id", .vstr "1")]]), ("total", .vnum 5)]])).state
      (.ok [[("items", .varr [[("_id", .vstr "1")]]), ("total", .vnum 6)]])).events.head?
      = some (Event.added "extras" (some (.vstr "sub1")) [("total", .vnum 6)]) :=
  ⟨rfl, rfl⟩

/-- C10: with docsPropName configured and a nonempty aggregation result,
the extras singleton event is the first event of the recompute - it
precedes every document added/changed/removed event - and whenever the
recompute then fails (the documents field missing or not an array), the
extras event has already been emitted: extras emission is not
transactional with the rest of the recompute. -/
theorem c10_extras_first (o : Options) (st : SubState) (p : String)
    (r0 : JsObj) (rest : List JsObj) (hp : o.docsPropName = some p) :
    (update o false st (.ok (r0 :: rest))).events.head? =
      some (Event.added o.clientExtrasCollection (some (.vstr o.subId))
        (r0.filter (fun q => q.1 != p))) ∧
    ((update o false st (.ok (r0 :: rest))).error.isSome = true →
      (update o false st (.ok (r0 :: rest))).events =
        [Event.added o.clientExtrasCollection (some (.vstr o.subId))
          (r0.filter (fun q => q.1 != p))]) := by
  cases hl : lookupField r0 p with
  | none => simp [update, hp, hl]
  | some v =>
    cases v with
    | vnum n => simp [update, hp, hl]
    | vstr s => simp [update, hp, hl]
    | varr ds =>
      constructor
      · simp [update, hp, hl, runDocsPhase]
      · intro h
        simp [update, hp, hl, runDocsPhase] at h

/-- Witness for C10: the spec extras example. The first emitted event is
added(extrasTarget, subId, total 5), before the document event. -/
theorem c10_extras_first_witness :
    (update oNested false initialSubState
      (.ok [[("items", .varr [[("_id", .vstr "1")]]), ("total", .vnum 5)]])).events.head?
      = some (Event.added "extras" (some (.vstr "sub1")) [("total", .vnum 5)]) := by
  have h := c10_extras_first oNested initialSubState "items"
    [("items", .varr [[("_id", .vstr "1")]]), ("total", .vnum 5)] [] rfl
  exact h.1.trans rfl

/-- A recompute that completes without error increments sub._iteration by
exactly one - at line 162, after the removal pass. -/
theorem update_ok_iteration (o : Options) (st : SubState) (res : AggResult)
    (h : (update o false st res).error = none) :
    (update o false st res).state.iteration = st.iteration + 1 := by
  cases res with
  | fail msg => simp [update] at h
  | ok records =>
    cases hp : o.docsPropName with
    | none => simp [update, hp, runDocsPhase]
    | some propName =>
      cases records with
      | nil => simp [update, hp] at h
      | cons r0 rest =>
        cases hl : lookupField r0 propName with
        | none => simp [update, hp, hl] at h
        | some v =>
          cases v with
          | vnum n => simp [update, hp, hl] at h
          | vstr s => simp [update, hp, hl] at h
          | varr ds => simp [update, hp, hl, runDocsPhase]

/-- Every entry of the identity map after a recompute either predates that
recompute or carries the entry value of sub._iteration as its stamp. -/
theorem update_state_mem (o : Options) (st : SubState) (res : AggResult)
    (p : String × Nat) (h : p ∈ (update o false st res).state.ids) :
    p ∈ st.ids ∨ p.2 = st.iteration := by
  cases res with
  | fail msg => exact Or.inl (by simpa [update] using h)
  | ok records =>
    cases hp : o.docsPropName with
    | none =>
      simp only [update, reduceIte, hp, runDocsPhase,
        removeStale_eq] at h
      exact processDocs_mem _ _ _ _ _ (List.mem_of_mem_filter h)
    | some propName =>
      cases records with
      | nil => exact Or.inl (by simpa [update, hp] using h)
      | cons r0 rest =>
        cases hl : lookupField r0 propName with
        | none => exact Or.inl (by simpa [update, hp, hl] using h)
        | some v =>
          cases v with
          | vnum n => exact Or.inl (by simpa [update, hp, hl] using h)
          | vstr s => exact Or.inl (by simpa [update, hp, hl] using h)
          | varr ds =>
            simp only [update, reduceIte, hp, hl, runDocsPhase,
              removeStale_eq] at h
            exact processDocs_mem _ _ _ _ _ (List.mem_of_mem_filter h)

/-- Every stamp used at or after the differ state st is at least
st.iteration. -/
theorem stampsUsed_lb (o : Options) (st : SubState) (ress : List AggResult) :
    ∀ x ∈ stampsUsed o st ress, st.iteration ≤ x := by
  induction ress generalizing st with
  | nil => simp [stampsUsed]
  | cons r rs ih =>
    intro x hx
    simp only [stampsUsed] at hx
    cases herr : (update o false st r).error with
    | none =>
      rw [herr] at hx
      rcases List.mem_cons.mp hx with h1 | h1
      · exact Nat.le_of_eq h1.symm
      · have h2 := ih _ x h1
        have h3 := update_ok_iteration o st r herr
        omega
    | some e =>
      rw [herr] at hx
      have h2 := ih _ x hx
      have h3 : (update o false st r).state = st :=
        update_error_state_eq o false st r (by simp [herr])
      rw [h3] at h2
      exact h2

/-- The iteration stamps used along any sequence of recomputes are
strictly increasing: no stamp value is ever reused. -/
theorem stampsUsed_chain (o : Options) (st : SubState)
    (ress : List AggResult) :
    List.Chain' (· < ·) (stampsUsed o st ress) := by
  induction ress generalizing st with
  | nil => simp [stampsUsed]
  | cons r rs ih =>
    simp only [stampsUsed]
    cases herr : (update o false st r).error with
    | none =>
      refine List.chain'_cons'.mpr ⟨?_, ih _⟩
      intro y hy
      have h1 := stampsUsed_lb o (update o false st r).state rs y
        (List.mem_of_mem_head? hy)
      have h2 := update_ok_iteration o st r herr
      omega
    | some e => exact ih _

/-- C8 counterexample: the counter starts at 1, and the first recompute
stamps its record with 1, the value of sub._iteration BEFORE any
increment; the increment happens at line 162, after the removal pass. If
the counter were incremented at the start of each recompute before any
record is processed, the first recompute would stamp with 2, and a
failing recompute would also move the counter, which it does not. -/
theorem c8_counterexample :
    (update oFlat false initialSubState (.ok [[("_id", .vstr "a")]])).state.ids
      = [("a", 1)] ∧
    (update oFlat false initialSubState (.ok [[("_id", .vstr "a")]])).state.iteration
      = 2 ∧
    (update oFlat false initialSubState (.ok [[("_id", .vstr "a")]])).state.ids
      ≠ [("a", 2)] ∧
    (update oFlat false ⟨[], 5⟩ (.fail "x")).state.iteration = 5 :=
  ⟨rfl, rfl, by decide, rfl⟩

/-- C8 amended: sub._iteration starts at 1 and is incremented by one at
the END of each recompute that completes without error (after the removal
pass); the records of a recompute are stamped with the pre-increment
counter value; a failing recompute leaves the counter untouched; along
any sequence of recomputes the stamps used are strictly increasing, so no
counter value is ever reused as an iteration stamp. -/
theorem c8_iteration_counter :
    (∀ (o : Options) (st : SubState) (res : AggResult),
      (update o false st res).error = none →
      (update o false st res).state.iteration = st.iteration + 1) ∧
    (∀ (o : Options) (st : SubState) (res : AggResult) (p : String × Nat),
      p ∈ (update o false st res).state.ids →
      p ∈ st.ids ∨ p.2 = st.iteration) ∧
    (∀ (o : Options) (st : SubState) (res : AggResult),
      (update o false st res).error.isSome = true →
      (update o false st res).state = st) ∧
    (∀ (o : Options) (st : SubState) (ress : List AggResult),
      List.Chain' (· < ·) (stampsUsed o st ress)) :=
  ⟨update_ok_iteration, update_state_mem,
   fun o st res h => update_error_state_eq o false st res h,
   stampsUsed_chain⟩

/-- Witness for C8 amended: on a concrete run the first recompute moves
the counter from 1 to 2, and the stamps used along a concrete sequence
with a failure in the middle are strictly increasing. -/
theorem c8_iteration_counter_witness :
    (update oFlat false initialSubState (.ok [[("_id", .vstr "a")]])).state.iteration
      = 2 ∧
    List.Chain' (· < ·) (stampsUsed oFlat initialSubState
      [.ok [[("_id", .vstr "a")]], .fail "x", .ok [[("_id", .vstr "a")]]]) :=
  ⟨(c8_iteration_counter.1 oFlat initialSubState
      (.ok [[("_id", .vstr "a")]]) rfl).trans rfl,
   c8_iteration_counter.2.2.2 oFlat initialSubState
      [.ok [[("_id", .vstr "a")]], .fail "x", .ok [[("_id", .vstr "a")]]]⟩

/-- The accumulated-count dynamics of consecutive signals follow modular
arithmetic with modulus debounceCount + 1. -/
theorem signalCount_mod (o : Options) (c : Nat) (k : Nat)
    (hc : c ≤ o.debounceCount) :
    signalCount o c k = (c + k) % (o.debounceCount + 1) := by
  induction k with
  | zero =>
    simp only [signalCount]
    rw [Nat.add_zero, Nat.mod_eq_of_lt (by omega)]
  | succ k ih =>
    simp only [signalCount]
    rw [ih]
    have hr : (c + k) % (o.debounceCount + 1) < o.debounceCount + 1 :=
      Nat.mod_lt _ (Nat.succ_pos _)
    have hstep : (c + (k + 1)) % (o.debounceCount + 1)
        = ((c + k) % (o.debounceCount + 1) + 1) % (o.debounceCount + 1) := by
      rw [show c + (k + 1) = (c + k) + 1 by omega,
        Nat.add_mod (c + k) 1,
        Nat.add_mod ((c + k) % (o.debounceCount + 1)) 1,
        Nat.mod_mod_of_dvd _ dvd_rfl]
    by_cases h : o.debounceCount < (c + k) % (o.debounceCount + 1) + 1
    · have he : (c + k) % (o.debounceCount + 1) = o.debounceCount := by omega
      rw [if_pos h, hstep, he, Nat.mod_self]
    · rw [if_neg h, hstep]
      exact (Nat.mod_eq_of_lt (by omega)).symm

/-- A signal crosses the count threshold exactly when the running count
sits at debounceCount, i.e. at the modular position debounceCount. -/
theorem signalFires_iff (o : Options) (c : Nat) (k : Nat)
    (hc : c ≤ o.debounceCount) :
    signalFires o c k = true ↔
      (c + k) % (o.debounceCount + 1) = o.debounceCount := by
  unfold signalFires
  rw [signalCount_mod o c k hc]
  have hr : (c + k) % (o.debounceCount + 1) < o.debounceCount + 1 :=
    Nat.mod_lt _ (Nat.succ_pos _)
  generalize (c + k) % (o.debounceCount + 1) = r at hr ⊢
  simp only [decide_eq_true_eq]
  omega

/-- Two threshold-crossing signals are at least debounceCount + 1 signals
apart: at most one immediate recompute per debounceCount consecutive
signals. -/
theorem signalFires_gap (o : Options) (c i j : Nat)
    (hc : c ≤ o.debounceCount) (hij : i < j)
    (hi : signalFires o c i = true) (hj : signalFires o c j = true) :
    o.debounceCount + 1 ≤ j - i := by
  rw [signalFires_iff o c i hc] at hi
  rw [signalFires_iff o c j hc] at hj
  have hmod : (c + i) % (o.debounceCount + 1) = (c + j) % (o.debounceCount + 1) :=
    hi.trans hj.symm
  have hdvd : (o.debounceCount + 1) ∣ (c + j) - (c + i) :=
    (Nat.modEq_iff_dvd' (by omega)).mp hmod
  have heq : (c + j) - (c + i) = j - i := by omega
  rw [heq] at hdvd
  exact Nat.le_of_dvd (by omega) hdvd

/-- C2 counterexample, with debounceCount 2 and debounceDelay 50: the
first post-setup signal arms the timer and leaves the count at 1; the
timer expiry triggers a recompute but does NOT clear the accumulated
state - the count stays 1 (the claim requires 0); and the next signal,
although no timer is armed and debounceCount is positive, arms no timer,
because the timer variable is never reset and the code tests the
variable, not whether a timeout is pending. -/
theorem c2_counterexample :
    debounce oNested false initialDState = (⟨true, true, 1⟩, false) ∧
    timerExpire (debounce oNested false initialDState).1
      = (⟨true, false, 1⟩, true) ∧
    (timerExpire (debounce oNested false initialDState).1).1.currentDebounceCount
      ≠ 0 ∧
    debounce oNested false
        (timerExpire (debounce oNested false initialDState).1).1
      = (⟨true, false, 2⟩, false) ∧
    (debounce oNested false
        (timerExpire (debounce oNested false initialDState).1).1).1.timerArmed
      ≠ true :=
  ⟨rfl, rfl, by decide, rfl, by decide⟩

/-- C2 amended: on each post-setup signal the counter is pre-incremented;
when it exceeds debounceCount the counter resets to 0, any pending
timeout is cancelled and a recompute triggers immediately; a timeout is
armed only when debounceCount is positive and no setTimeout handle was
ever stored (the timer variable is never reset, so at most one timeout is
armed per subscription lifetime); timer expiry triggers a recompute but
leaves the counter and the timer variable unchanged. Hence two immediate
triggers are at least debounceCount + 1 signals apart - at most one
immediate recompute per debounceCount consecutive signals - and with the
default debounceCount = 0 every post-setup signal triggers a recompute. -/
theorem c2_debounce_amended :
    (∀ (o : Options) (d : DState),
      (debounce o false d).2 = true ↔
        o.debounceCount < d.currentDebounceCount + 1) ∧
    (∀ (o : Options) (d : DState), (debounce o false d).2 = true →
      (debounce o false d).1.currentDebounceCount = 0 ∧
      (debounce o false d).1.timerArmed = false) ∧
    (∀ (o : Options) (d : DState), (debounce o false d).2 = false →
      (debounce o false d).1.currentDebounceCount
        = d.currentDebounceCount + 1) ∧
    (∀ (o : Options) (d : DState),
      (debounce o false d).1.timerSet
        = (d.timerSet || decide (0 < o.debounceCount))) ∧
    (∀ (o : Options) (d : DState), d.timerSet = true →
      (debounce o false d).2 = false →
      (debounce o false d).1.timerArmed = d.timerArmed) ∧
    (∀ d : DState, d.timerArmed = true →
      timerExpire d = ({ d with timerArmed := false }, true)) ∧
    (∀ (o : Options) (c i j : Nat), c ≤ o.debounceCount → i < j →
      signalFires o c i = true → signalFires o c j = true →
      o.debounceCount + 1 ≤ j - i) ∧
    (∀ (o : Options) (d : DState), o.debounceCount = 0 →
      (debounce o false d).2 = true) := by
  have hchar : ∀ (o : Options) (d : DState),
      debounce o false d =
        (if o.debounceCount < d.currentDebounceCount + 1 then
          (⟨d.timerSet || decide (0 < o.debounceCount), false, 0⟩, true)
         else
          (⟨d.timerSet || decide (0 < o.debounceCount),
            if d.timerSet = false ∧ 0 < o.debounceCount then true
            else d.timerArmed,
            d.currentDebounceCount + 1⟩, false)) := by
    intro o d
    by_cases hts : d.timerSet = true <;>
      by_cases hN : 0 < o.debounceCount <;>
        by_cases hth : o.debounceCount < d.currentDebounceCount + 1 <;>
          simp_all [debounce]
  refine ⟨?_, ?_, ?_, ?_, ?_, ?_, signalFires_gap, ?_⟩
  · intro o d
    rw [hchar]
    by_cases hth : o.debounceCount < d.currentDebounceCount + 1 <;>
      simp [hth]
  · intro o d h
    rw [hchar] at h ⊢
    by_cases hth : o.debounceCount < d.currentDebounceCount + 1
    · simp [hth]
    · simp [hth] at h
  · intro o d h
    rw [hchar] at h ⊢
    by_cases hth : o.debounceCount < d.currentDebounceCount + 1
    · simp [hth] at h
    · simp [hth]
  · intro o d
    rw [hchar]
    by_cases hth : o.debounceCount < d.currentDebounceCount + 1 <;>
      simp [hth]
  · intro o d hset h
    rw [hchar] at h ⊢
    by_cases hth : o.debounceCount < d.currentDebounceCount + 1
    · simp [hth] at h
    · simp [hth, hset]
  · intro d h
    simp [timerExpire, h]
  · intro o d h
    rw [hchar]
    simp [h]

/-- Witness for C2 amended: a concrete expiry leaves state untouched but
fires, and two concrete threshold crossings (signals 2 and 5 from count 0
with debounceCount 2) are 3 apart. -/
theorem c2_debounce_amended_witness :
    timerExpire ⟨true, true, 1⟩ = (⟨true, false, 1⟩, true) ∧
    oNested.debounceCount + 1 ≤ 5 - 2 := by
  constructor
  · exact (c2_debounce_amended.2.2.2.2.2.1 ⟨true, true, 1⟩ rfl).trans rfl
  · exact c2_debounce_amended.2.2.2.2.2.2.1 oNested 0 2 5
      (by decide) (by decide) (by decide) (by decide)

/-- Setup-phase signals leave the debounce state untouched and never
invoke update: debounce returns immediately while initializing. -/
theorem runSetupSignals_eq (o : Options) (d : DState) (n : Nat) :
    runSetupSignals o d n = (d, 0) := by
  induction n generalizing d with
  | zero => rfl
  | succ n ih => simp [runSetupSignals, debounce, ih]

/-- C6 counterexample: a concrete setup (no setup-phase signals, initial
snapshot of one document). The first sink call is sub.ready() and the
added event of the initial snapshot comes after it - ready is not the
last call - refuting the claimed snapshot-then-ready ordering: update is
an async function called without await at line 203, it suspends at the
await of the aggregation before emitting anything, and sub.ready() at
line 205 runs synchronously in between. -/
theorem c6_counterexample :
    (setupRun oFlat 0 (.ok [[("_id", .vstr "1")]])).1
      = [SinkCall.ready,
         SinkCall.ev (Event.added "coll" (some (.vstr "1"))
           [("_id", .vstr "1")])] ∧
    (setupRun oFlat 0 (.ok [[("_id", .vstr "1")]])).1.head?
      = some SinkCall.ready ∧
    (setupRun oFlat 0 (.ok [[("_id", .vstr "1")]])).1.getLast?
      ≠ some SinkCall.ready := by
  refine ⟨rfl, rfl, ?_⟩
  intro h
  have h1 : (setupRun oFlat 0 (.ok [[("_id", .vstr "1")]])).1.getLast?
      = some (SinkCall.ev (Event.added "coll" (some (.vstr "1"))
        [("_id", .vstr "1")])) := rfl
  have h2 := h1.symm.trans h
  injection h2 with h3
  exact SinkCall.noConfusion h3

/-- C6 amended: every change signal delivered while the subscription is
in its setup phase is ignored (no recompute trigger, no state change, and
even a directly invoked update is a no-op while initializing, so no sink
call); after wiring completes, exactly one unconditional, non-debounced
recompute is initiated - but, being an unawaited async call that suspends
at the aggregation await, it emits nothing before sub.ready() runs, so
the sink order is ready first and then the events of the initial
recompute; no added/changed/removed call is made before the events of
the first recompute itself. -/
theorem c6_setup_phase (o : Options) (n : Nat) (agg : AggResult) :
    runSetupSignals o initialDState n = (initialDState, 0) ∧
    (∀ (st : SubState) (res : AggResult),
      update o true st res = { events := [], state := st, error := none }) ∧
    setupRun o n agg =
      (SinkCall.ready
         :: (update o false initialSubState agg).events.map SinkCall.ev,
       (update o false initialSubState agg).state,
       initialDState) := by
  refine ⟨runSetupSignals_eq o initialDState n, ?_, ?_⟩
  · intro st res
    simp [update]
  · simp [setupRun, runSetupSignals_eq]

/-- C7 counterexample: a subscription whose debounce timer is armed is
stopped; the stop hook stops the observer handle but does not cancel the
pending timeout and update consults no stopped flag, so when the timeout
fires the recompute runs in full: it emits a sink event and mutates the
identity map, refuting the becomes-a-no-op part of the claim. -/
theorem c7_counterexample :
    (timerExpire
      (onStopRun ⟨[⟨false⟩], ⟨true, true, 1⟩, initialSubState⟩).dstate).2
      = true ∧
    (update oFlat false
      (onStopRun ⟨[⟨false⟩], ⟨true, true, 1⟩, initialSubState⟩).sstate
      (.ok [[("_id", .vstr "x")]])).events.length = 1 ∧
    (update oFlat false
      (onStopRun ⟨[⟨false⟩], ⟨true, true, 1⟩, initialSubState⟩).sstate
      (.ok [[("_id", .vstr "x")]])).state.ids = [("x", 1)] ∧
    (update oFlat false
      (onStopRun ⟨[⟨false⟩], ⟨true, true, 1⟩, initialSubState⟩).sstate
      (.ok [[("_id", .vstr "x")]])).state.ids
      ≠ (onStopRun ⟨[⟨false⟩], ⟨true, true, 1⟩, initialSubState⟩).sstate.ids :=
  ⟨rfl, rfl, rfl, by decide⟩

/-- C7 amended: the stop hook stops every observer handle, so no further
change signal arrives; but it leaves the debounce state and differ state
untouched: in particular an already-armed debounce timer is NOT
cancelled, and when it expires it still invokes update, which runs a full
recompute (sink calls and identity map mutation included). -/
theorem c7_stop_hook (s : SubInstance) :
    (∀ h ∈ (onStopRun s).handles, h.stopped = true) ∧
    (onStopRun s).dstate = s.dstate ∧
    (onStopRun s).sstate = s.sstate ∧
    (s.dstate.timerArmed = true →
      (timerExpire (onStopRun s).dstate).2 = true) := by
  refine ⟨?_, rfl, rfl, ?_⟩
  · intro h hm
    rcases List.mem_map.mp hm with ⟨h0, _, rfl⟩
    rfl
  · intro h
    simp [onStopRun, timerExpire, h]

/-- Witness for C7 amended: a concrete stopped handle is stopped, and a
concrete armed timer still fires after the stop hook ran. -/
theorem c7_stop_hook_witness :
    (⟨true⟩ : ObserverHandle).stopped = true ∧
    (timerExpire
      (onStopRun ⟨[⟨false⟩], ⟨true, true, 1⟩, initialSubState⟩).dstate).2
      = true :=
  ⟨(c7_stop_hook ⟨[⟨false⟩], ⟨true, true, 1⟩, initialSubState⟩).1
      ⟨true⟩ (by decide),
   (c7_stop_hook ⟨[⟨false⟩], ⟨true, true, 1⟩, initialSubState⟩).2.2.2 rfl⟩

/-- C9 counterexample: debounceCount = 2.5 is not an integer, yet
construction succeeds: the code checks only typeof number, then applies
parseInt (truncation toward zero) and rejects only negative results, so
2.5 is silently accepted as 2. -/
theorem c9_counterexample :
    jsTrunc (⟨5, 2, by decide, by decide⟩ : Rat) = 2 ∧
    ((2 : Rat) ≠ ⟨5, 2, by decide, by decide⟩) ∧
    checkConfig ⟨true, true, true, true, some false, true, true, some [],
      some (⟨5, 2, by decide, by decide⟩ : Rat), some 0, true⟩
      = .ok ⟨false, 0, 2, 0⟩ :=
  ⟨by decide, by decide, rfl⟩

/-- C9 amended: all configuration is validated synchronously at setup,
in source order, and any failure aborts construction before any observer
is attached; construction succeeds exactly when the subscription handle
has ready and stop, the source is a collection, the pipeline is an array,
options is an object, noAutomaticObserver is a boolean, the deprecated
observe options are objects, observers is an array of cursors,
clientCollection is a string, and debounceCount and debounceDelay are
numbers whose parseInt truncation is nonnegative - non-integer numeric
values are truncated toward zero and accepted, not rejected. -/
theorem c9_validation (i : SetupInput) :
    ((∃ c, checkConfig i = .ok c) ↔
      (i.subOk = true ∧ i.collectionOk = true ∧ i.pipelineIsArray = true ∧
       i.optionsIsObject = true ∧ (∃ b, i.noAutomaticObserver = some b) ∧
       i.observeSelectorIsObject = true ∧ i.observeOptionsIsObject = true ∧
       (∃ obs, i.observers = some obs ∧ obs.all (fun b => b) = true) ∧
       (∃ q, i.debounceCount = some q ∧ 0 ≤ jsTrunc q) ∧
       (∃ q, i.debounceDelay = some q ∧ 0 ≤ jsTrunc q) ∧
       i.clientCollectionIsString = true)) ∧
    (∀ e, checkConfig i = .error e → reactiveAggregateSetup i = .error e) := by
  constructor
  · constructor
    · rintro ⟨c, hc⟩
      unfold checkConfig at hc
      repeat' split at hc
      all_goals simp_all
    · rintro ⟨h1, h2, h3, h4, ⟨b, hb⟩, h5, h6, ⟨obs1, hobs, hall⟩,
        ⟨qc, hqc, hqc2⟩, ⟨qd, hqd, hqd2⟩, h7⟩
      refine ⟨⟨b, obs1.length, jsTrunc qc, jsTrunc qd⟩, ?_⟩
      simp [checkConfig, h1, h2, h3, h4, hb, h5, h6, hobs, hall, hqc, hqd,
        h7, not_lt.mpr hqc2, not_lt.mpr hqd2]
  · intro e he
    simp [reactiveAggregateSetup, he]

/-- Witness for C9 amended: a concrete well-formed input validates, and a
concrete bad input (non-array pipeline) makes setup abort with the
pipeline error before any observer is attached. -/
theorem c9_validation_witness :
    (∃ c, checkConfig ⟨true, true, true, true, some false, true, true,
      some [true], some 0, some 0, true⟩ = .ok c) ∧
    reactiveAggregateSetup ⟨true, true, false, true, some false, true, true,
      some [true], some 0, some 0, true⟩
      = .error ⟨"\"pipeline\" must be an array"⟩ := by
  constructor
  · exact (c9_validation ⟨true, true, true, true, some false, true, true,
      some [true], some 0, some 0, true⟩).1.mpr
      ⟨rfl, rfl, rfl, rfl, ⟨false, rfl⟩, rfl, rfl, ⟨[true], rfl, rfl⟩,
       ⟨0, rfl, by decide⟩, ⟨0, rfl, by decide⟩, rfl⟩
  · exact (c9_validation ⟨true, true, false, true, some false, true, true,
      some [true], some 0, some 0, true⟩).2 ⟨"\"pipeline\" must be an array"⟩
      rfl

end ReactiveAggregate
